import Mathlib

/-!
Shallow embedding of the progression and challenge-evaluation engine of the
gamified fitness app (`src/app.py`).

Conventions of the embedding:
* Python `float` EXP arithmetic is modelled exactly over `ℚ` (the literals
  0.05, 1.1, 1.2, 1.3, 0.9, 1.5 are the rationals 1/20, 11/10, 6/5, 13/10,
  9/10, 3/2).
* Calendar dates are modelled by the proleptic Gregorian calendar exactly as
  CPython's `datetime.date` does: a date is a year/month/day triple, and date
  arithmetic goes through the ordinal (day count with 0001-01-01 = 1,
  `date.toordinal`).  `date.weekday()` and `date.isocalendar()` are
  transcribed from CPython's pure-Python `datetime` implementation.
* `last_penalty_date` is stored in the code as an ISO `YYYY-MM-DD` string and
  compared for string equality; since `isoformat` is injective on dates, the
  embedding stores the date's ordinal and compares ordinals.
* The while-loops of the code (leveling loop, streak walk) are embedded as
  fuel-indexed structural recursions; the wrapper functions supply fuel that
  is proved sufficient (`levelUpLoop_spec`, `streakWalk` lemmas), which is
  exactly the termination argument of the source loops.
* Display-only fields of challenge dicts (`name`, `desc`, `icon`, `period`)
  and of activities (`notes`, `evidence_url`, ...) are omitted: no claim
  mentions them.
-/

namespace FitnessApp

/-! ## Calendar: CPython `datetime.date` arithmetic -/

/-- A calendar date, as CPython's `datetime.date` (year ≥ 1, month 1..12). -/
structure Ymd where
  year : ℕ
  month : ℕ
  day : ℕ
deriving DecidableEq, Repr

/-- `datetime._is_leap`. -/
def isLeap (y : ℕ) : Bool :=
  y % 4 == 0 && (y % 100 != 0 || y % 400 == 0)

/-- `datetime._DAYS_BEFORE_MONTH` table plus the leap-day adjustment of
`datetime._days_before_month`. -/
def daysBeforeMonth (y m : ℕ) : ℕ :=
  (match m with
   | 1 => 0 | 2 => 31 | 3 => 59 | 4 => 90 | 5 => 120 | 6 => 151
   | 7 => 181 | 8 => 212 | 9 => 243 | 10 => 273 | 11 => 304 | 12 => 334
   | _ => 0) +
  (if m > 2 && isLeap y then 1 else 0)

/-- `datetime._days_before_year`. -/
def daysBeforeYear (y : ℕ) : ℕ :=
  365 * (y - 1) + (y - 1) / 4 - (y - 1) / 100 + (y - 1) / 400

/-- `datetime._ymd2ord` / `date.toordinal`: 0001-01-01 has ordinal 1. -/
def toOrdinal (d : Ymd) : ℤ :=
  (daysBeforeYear d.year + daysBeforeMonth d.year d.month + d.day : ℕ)

/-- `date.weekday()` on an ordinal: Monday = 0 ... Sunday = 6.  Python's `%`
is floor-mod, i.e. `Int.fmod`. -/
def ordWeekday (o : ℤ) : ℤ := Int.fmod (o + 6) 7

/-- `datetime._isoweek1monday`: ordinal of the Monday of week 1 of the ISO
year `year` (the week containing the first Thursday). -/
def isoweek1monday (year : ℕ) : ℤ :=
  let firstday := toOrdinal ⟨year, 1, 1⟩
  let firstweekday := Int.fmod (firstday + 6) 7
  let week1monday := firstday - firstweekday
  if firstweekday > 3 then week1monday + 7 else week1monday

/-- `date.isocalendar()`: (ISO year, ISO week number ≥ 1, ISO weekday 1..7),
transcribed from CPython.  Python's `divmod` is floor division/mod, i.e.
`Int.fdiv` / `Int.fmod`. -/
def isocalendar (d : Ymd) : ℕ × ℤ × ℤ :=
  let year := d.year
  let today := toOrdinal d
  let week := Int.fdiv (today - isoweek1monday year) 7
  let day := Int.fmod (today - isoweek1monday year) 7
  if week < 0 then
    let year := year - 1
    let week := Int.fdiv (today - isoweek1monday year) 7
    let day := Int.fmod (today - isoweek1monday year) 7
    (year, week + 1, day + 1)
  else if week ≥ 52 && today ≥ isoweek1monday (year + 1) then
    (year + 1, 0 + 1, day + 1)
  else
    (year, week + 1, day + 1)

/-- The ISO week number component of `isocalendar` (`isocalendar()[1]`). -/
def isoWeekNumber (d : Ymd) : ℤ := (isocalendar d).2.1

/-- The ISO year component of `isocalendar` (`isocalendar()[0]`). -/
def isoYear (d : Ymd) : ℕ := (isocalendar d).1

-- Sanity checks of the calendar embedding against known values of CPython.
example : toOrdinal ⟨2024, 1, 1⟩ = 738886 := by decide
example : ordWeekday (toOrdinal ⟨2024, 1, 1⟩) = 0 := by decide
example : isocalendar ⟨2024, 1, 1⟩ = (2024, 1, 1) := by decide
example : isocalendar ⟨2024, 12, 31⟩ = (2025, 1, 2) := by decide
example : isocalendar ⟨2025, 12, 29⟩ = (2026, 1, 1) := by decide
example : isocalendar ⟨2026, 1, 1⟩ = (2026, 1, 4) := by decide

/-! ## Experience and leveling (`calculate_exp_for_next_level`,
`calculate_exp_gain`, the leveling while-loop of `add_activity` /
`claim_challenge`) -/

/-- `calculate_exp_for_next_level`: `math.floor(100 * level ** 1.5)`.
Since `100 * l^1.5 = √(10000 * l³)`, the floor is `Nat.sqrt (10000 * l³)`
(proved in `calculate_exp_for_next_level_eq_floor`). -/
def calculate_exp_for_next_level (current_level : ℕ) : ℕ :=
  Nat.sqrt (10000 * current_level ^ 3)

/-- `PLAYER_CLASSES`: key ↦ (specialty list, bonus).  Only the fields the
EXP engine reads are kept. -/
def PLAYER_CLASSES : List (String × List String × ℚ) :=
  [("guerrero", (["Pesas", "Calistenia"], 3/10)),
   ("corredor", (["Cardio", "HIIT"], 3/10)),
   ("monje", (["Yoga", "Artes Marciales"], 3/10)),
   ("nadador", (["Natacion", "Remo"], 3/10)),
   ("ciclista", (["Ciclismo", "Senderismo"], 3/10)),
   ("deportista", (["Futbol", "Baloncesto", "Tenis", "Padel"], 3/10)),
   ("luchador", (["Boxeo", "Crossfit", "Escalada"], 3/10))]

def VALID_EXERCISE_TYPES : List String :=
  ["Cardio", "Pesas", "Yoga", "Natacion", "Ciclismo", "Calistenia", "HIIT",
   "Futbol", "Baloncesto", "Tenis", "Padel", "Boxeo", "Artes Marciales",
   "Crossfit", "Escalada", "Senderismo", "Remo", "Otro"]

def VALID_INTENSITIES : List String := ["low", "medium", "high"]

/-- `calculate_exp_gain(duration, intensity, has_evidence, user, exercise_type)`.
The Python truthiness test `if user and exercise_type and user.player_class`
is modelled by `exercise_type ≠ ""` (the call sites always pass a user) plus
the `Option` match on the player class. -/
def calculate_exp_gain (duration : ℕ) (intensity : String) (has_evidence : Bool)
    (player_class : Option String) (exercise_type : String) : ℚ :=
  let mult : ℚ :=
    if intensity = "low" then 1
    else if intensity = "medium" then 3/2
    else if intensity = "high" then 2
    else 1
  let base := (duration : ℚ) * mult
  let base := if has_evidence then base * (12/10) else base
  if exercise_type ≠ "" then
    match player_class with
    | some pc =>
      match PLAYER_CLASSES.find? (fun c => c.1 = pc) with
      | some c => if exercise_type ∈ c.2.1 then base * (1 + c.2.2) else base
      | none => base
    | none => base
  else base

/-- The weight-change adjustment inlined in `add_activity` (src/app.py:659-662):
`if current_user.weight: wd = current_user.weight - weight; ...`.
Python's `if current_user.weight` is false for `None` and for `0.0`. -/
def add_activity_weight_adjust (user_weight : Option ℚ) (new_weight : ℚ) (g : ℚ) : ℚ :=
  match user_weight with
  | some w =>
    if w ≠ 0 then
      if w - new_weight > 0 then g * (11/10)
      else if w - new_weight < 0 then g * (9/10)
      else g
    else g
  | none => g

/-- The leveling while-loop
`while exp >= calculate_exp_for_next_level(level): exp -= ...; level += 1`
(src/app.py:676-679 and 859-862), as a fuel-indexed recursion.  The third
component collects the levels reached, one per flash message. -/
def levelUpLoop : ℕ → ℕ → ℚ → ℕ × ℚ × List ℕ
  | 0, level, e => (level, e, [])
  | fuel + 1, level, e =>
    if (calculate_exp_for_next_level level : ℚ) ≤ e then
      let r := levelUpLoop fuel (level + 1) (e - (calculate_exp_for_next_level level : ℚ))
      (r.1, r.2.1, (level + 1) :: r.2.2)
    else (level, e, [])

/-- Fuel sufficient for `levelUpLoop` starting from EXP `e`: each iteration
removes at least 100 EXP (for level ≥ 1), and `e ≤ e.num.toNat`, so
`e.num.toNat + 1` iterations suffice (`levelUpLoop_fuel_congr` shows the
result does not depend on the fuel once it is sufficient, which is the
termination argument of the source's while-loop). -/
def levelFuel (e : ℚ) : ℕ := e.num.toNat + 1

/-- The leveling loop as run by the code at a call site with EXP `e`. -/
def applyLeveling (level : ℕ) (e : ℚ) : ℕ × ℚ × List ℕ :=
  levelUpLoop (levelFuel e) level e

/-! ### Concrete values of `calculate_exp_for_next_level` -/

theorem expNext_one : calculate_exp_for_next_level 1 = 100 :=
  (Nat.eq_sqrt.mpr (by decide)).symm

theorem expNext_two : calculate_exp_for_next_level 2 = 282 :=
  (Nat.eq_sqrt.mpr (by decide)).symm

theorem expNext_five : calculate_exp_for_next_level 5 = 1118 :=
  (Nat.eq_sqrt.mpr (by decide)).symm

theorem expNext_ten : calculate_exp_for_next_level 10 = 3162 :=
  (Nat.eq_sqrt.mpr (by decide)).symm

example : calculate_exp_gain 60 "medium" false none "Cardio" = 90 := by
  simp [calculate_exp_gain]
  norm_num

/-! ### Basic lemmas about the leveling loop -/

theorem threshold_ge_100 {l : ℕ} (hl : 1 ≤ l) :
    100 ≤ calculate_exp_for_next_level l := by
  unfold calculate_exp_for_next_level
  rw [Nat.le_sqrt]
  calc 100 * 100 = 10000 * 1 := by norm_num
  _ ≤ 10000 * l ^ 3 := by
      apply Nat.mul_le_mul_left
      exact Nat.one_le_iff_ne_zero.mpr (pow_ne_zero 3 (Nat.one_le_iff_ne_zero.mp hl))

theorem rat_le_num_toNat (e : ℚ) : e ≤ (e.num.toNat : ℚ) := by
  rcases le_or_lt e 0 with h | h
  · exact h.trans (by positivity)
  · have hnum : 0 < e.num := Rat.num_pos.mpr h
    have h1 : (e.num : ℚ) ≤ (e.num.toNat : ℚ) := by
      exact_mod_cast Int.self_le_toNat e.num
    refine le_trans ?_ h1
    conv_lhs => rw [← Rat.num_div_den e]
    have hden : (0 : ℚ) < (e.den : ℚ) := by exact_mod_cast e.pos
    rw [div_le_iff₀ hden]
    have : (1 : ℚ) ≤ (e.den : ℚ) := by
      exact_mod_cast Nat.one_le_iff_ne_zero.mpr e.den_nz
    calc (e.num : ℚ) = e.num * 1 := by ring
    _ ≤ e.num * e.den := by
        apply mul_le_mul_of_nonneg_left this
        exact_mod_cast hnum.le

theorem lt_hundred_mul_levelFuel (e : ℚ) : e < 100 * (levelFuel e : ℚ) := by
  have h1 := rat_le_num_toNat e
  have h2 : ((e.num.toNat : ℚ)) < (levelFuel e : ℚ) := by
    unfold levelFuel; push_cast; linarith
  have h3 : (levelFuel e : ℚ) ≤ 100 * (levelFuel e : ℚ) := by
    have : (0 : ℚ) ≤ (levelFuel e : ℚ) := by positivity
    linarith
  linarith

/-- Fuel irrelevance: once the fuel bounds `e / 100`, the loop's result no
longer depends on it.  This is the termination argument of the while-loop:
each iteration removes `calculate_exp_for_next_level level ≥ 100` EXP. -/
theorem levelUpLoop_fuel_congr :
    ∀ (f f' l : ℕ) (e : ℚ), 1 ≤ l → e < 100 * f → e < 100 * f' →
      levelUpLoop f l e = levelUpLoop f' l e := by
  intro f
  induction f with
  | zero =>
    intro f' l e hl hf _
    simp only [Nat.cast_zero, mul_zero] at hf
    cases f' with
    | zero => rfl
    | succ g =>
      have hcond : ¬ ((calculate_exp_for_next_level l : ℚ) ≤ e) := by
        have : (0:ℚ) ≤ (calculate_exp_for_next_level l : ℚ) := by positivity
        linarith
      simp [levelUpLoop, hcond]
  | succ f ih =>
    intro f' l e hl hf hf'
    cases f' with
    | zero =>
      simp only [Nat.cast_zero, mul_zero] at hf'
      have hcond : ¬ ((calculate_exp_for_next_level l : ℚ) ≤ e) := by
        have : (0:ℚ) ≤ (calculate_exp_for_next_level l : ℚ) := by positivity
        linarith
      simp [levelUpLoop, hcond]
    | succ g =>
      by_cases hcond : (calculate_exp_for_next_level l : ℚ) ≤ e
      · have h100 : (100 : ℚ) ≤ (calculate_exp_for_next_level l : ℚ) := by
          exact_mod_cast threshold_ge_100 hl
        have hrec : e - (calculate_exp_for_next_level l : ℚ) < 100 * f := by
          push_cast at hf ⊢; linarith
        have hrec' : e - (calculate_exp_for_next_level l : ℚ) < 100 * g := by
          push_cast at hf' ⊢; linarith
        simp only [levelUpLoop, hcond, if_true]
        rw [ih g (l + 1) _ (Nat.le_succ_of_le hl) hrec hrec']
      · simp [levelUpLoop, hcond]

/-- Post-condition of the leveling loop: the final level is at least the
initial one, the final EXP is below the threshold of the final level
(re-normalization), it stays non-negative, and the list of reported level-up
messages is exactly the levels crossed, in order. -/
theorem levelUpLoop_spec :
    ∀ (f l : ℕ) (e : ℚ), 1 ≤ l → e < 100 * f →
      let r := levelUpLoop f l e
      l ≤ r.1 ∧
      r.2.1 < (calculate_exp_for_next_level r.1 : ℚ) ∧
      (0 ≤ e → 0 ≤ r.2.1) ∧
      r.2.2 = List.range' (l + 1) (r.1 - l) := by
  intro f
  induction f with
  | zero =>
    intro l e hl hf
    simp only [Nat.cast_zero, mul_zero] at hf
    refine ⟨le_refl _, ?_, ?_, ?_⟩
    · have : (0:ℚ) ≤ (calculate_exp_for_next_level l : ℚ) := by positivity
      simpa [levelUpLoop] using lt_of_lt_of_le hf this
    · intro h0; exact absurd (lt_of_le_of_lt h0 hf) (lt_irrefl 0)
    · simp [levelUpLoop]
  | succ f ih =>
    intro l e hl hf
    by_cases hcond : (calculate_exp_for_next_level l : ℚ) ≤ e
    · have h100 : (100 : ℚ) ≤ (calculate_exp_for_next_level l : ℚ) := by
        exact_mod_cast threshold_ge_100 hl
      have hrec : e - (calculate_exp_for_next_level l : ℚ) < 100 * f := by
        push_cast at hf ⊢; linarith
      have h := ih (l + 1) (e - (calculate_exp_for_next_level l : ℚ))
        (Nat.le_succ_of_le hl) hrec
      simp only at h
      obtain ⟨hle, hlt, hnn, hlist⟩ := h
      simp only [levelUpLoop, hcond, if_true]
      refine ⟨Nat.le_of_succ_le hle, hlt, fun _ => hnn (by linarith), ?_⟩
      rw [hlist]
      have hsub : (levelUpLoop f (l + 1) (e - (calculate_exp_for_next_level l : ℚ))).1 - l
          = ((levelUpLoop f (l + 1) (e - (calculate_exp_for_next_level l : ℚ))).1 - (l + 1)) + 1 := by
        omega
      rw [hsub, List.range'_succ]
    · simp only [levelUpLoop, hcond, if_false]
      exact ⟨le_refl _, lt_of_not_le hcond, fun h0 => h0, by simp⟩

/-- Step equation for `applyLeveling` when the loop runs at least once. -/
theorem applyLeveling_step {l : ℕ} {e : ℚ} (hl : 1 ≤ l)
    (h : (calculate_exp_for_next_level l : ℚ) ≤ e) :
    applyLeveling l e =
      ((applyLeveling (l + 1) (e - (calculate_exp_for_next_level l : ℚ))).1,
       (applyLeveling (l + 1) (e - (calculate_exp_for_next_level l : ℚ))).2.1,
       (l + 1) :: (applyLeveling (l + 1) (e - (calculate_exp_for_next_level l : ℚ))).2.2) := by
  have h100 : (100 : ℚ) ≤ (calculate_exp_for_next_level l : ℚ) := by
    exact_mod_cast threshold_ge_100 hl
  have he : e < 100 * (levelFuel e : ℚ) := lt_hundred_mul_levelFuel e
  have he' : e - (calculate_exp_for_next_level l : ℚ) < 100 * ((levelFuel e - 1 : ℕ) : ℚ) := by
    have h1 : (1:ℚ) ≤ (levelFuel e : ℚ) := by
      have : 1 ≤ levelFuel e := Nat.succ_le_succ (Nat.zero_le _)
      exact_mod_cast this
    have : ((levelFuel e - 1 : ℕ) : ℚ) = (levelFuel e : ℚ) - 1 := by
      have : 1 ≤ levelFuel e := Nat.succ_le_succ (Nat.zero_le _)
      push_cast [Nat.cast_sub this]; ring
    rw [this]; linarith
  have hfe : levelFuel e = (levelFuel e - 1) + 1 := by
    have : 1 ≤ levelFuel e := Nat.succ_le_succ (Nat.zero_le _)
    omega
  have hcong := levelUpLoop_fuel_congr (levelFuel e - 1)
    (levelFuel (e - (calculate_exp_for_next_level l : ℚ))) (l + 1)
    (e - (calculate_exp_for_next_level l : ℚ))
    (Nat.le_succ_of_le hl) he' (lt_hundred_mul_levelFuel _)
  set R := applyLeveling (l + 1) (e - (calculate_exp_for_next_level l : ℚ)) with hR
  show levelUpLoop (levelFuel e) l e = (R.1, R.2.1, (l + 1) :: R.2.2)
  conv_lhs => rw [hfe]
  simp only [levelUpLoop, h, if_true]
  rw [hcong, hR]
  rfl

/-- Stop equation for `applyLeveling` when the loop condition fails. -/
theorem applyLeveling_stop {l : ℕ} {e : ℚ}
    (h : e < (calculate_exp_for_next_level l : ℚ)) :
    applyLeveling l e = (l, e, []) := by
  unfold applyLeveling levelFuel
  simp only [levelUpLoop, not_le.mpr h, if_false]

example : applyLeveling 1 105 = (2, 5, [2]) := by
  have h1 : applyLeveling 2 5 = (2, 5, []) :=
    applyLeveling_stop (by rw [expNext_two]; norm_num)
  rw [applyLeveling_step le_rfl (by rw [expNext_one]; norm_num), expNext_one]
  norm_num [h1]

/-! ## Activities and users -/

/-- The fields of an activity document that the progression engine reads.
`date` is the activity's calendar date as an ordinal (the code normalizes
timestamps and ISO strings to a calendar date via `_get_activity_date`). -/
structure Activity where
  date : ℤ
  exercise_type : String
  duration : ℕ
  intensity : String
  exp_gained : ℚ
  has_evidence : Bool
  weight_recorded : ℚ
deriving DecidableEq, Repr

/-- The fields of the `User` document that the progression engine reads and
writes.  `last_penalty_date` holds the date (ordinal) whose ISO string the
code stores; `claimed_challenges` is the claimed-instance id list. -/
structure UserState where
  level : ℕ
  exp : ℚ
  weight : Option ℚ
  last_penalty_date : Option ℤ
  player_class : Option String
  claimed_challenges : List String
deriving DecidableEq, Repr

/-- A fresh user as created by registration: `level=1, exp=0`, no weight, no
class, nothing claimed. -/
def freshUser : UserState :=
  { level := 1, exp := 0, weight := none, last_penalty_date := none,
    player_class := none, claimed_challenges := [] }

/-! ## Streak (`calculate_streak`) -/

/-- The backward walk of `calculate_streak`
(`while current_date in activity_dates: streak += 1; current_date -= 1 day`),
fuel-indexed; the set of distinct activity dates bounds the walk length. -/
def streakWalk : ℕ → Finset ℤ → ℤ → ℕ
  | 0, _, _ => 0
  | fuel + 1, s, cur => if cur ∈ s then streakWalk fuel s (cur - 1) + 1 else 0

/-- `calculate_streak`, as a function of the set of distinct activity dates
and today's date (the code derives the set from the user's activity
documents). -/
def calculate_streak (activity_dates : Finset ℤ) (today : ℤ) : ℕ :=
  if h : activity_dates.Nonempty then
    let last_date := activity_dates.max' h
    if today - last_date > 1 then 0
    else
      streakWalk (activity_dates.card + 1) activity_dates
        (if today ∈ activity_dates then today else last_date)
  else 0

/-! ## Inactivity penalty (`apply_inactivity_penalty`) -/

/-- `apply_inactivity_penalty`, as a function of the user's EXP, the stored
`last_penalty_date`, the user's activity dates and today; returns the new
`(exp, last_penalty_date)` pair.  The code compares ISO date strings, which
is equivalent to comparing the dates themselves (`isoformat` is injective). -/
def apply_inactivity_penalty (exp : ℚ) (last_penalty_date : Option ℤ)
    (activity_dates : List ℤ) (today : ℤ) : ℚ × Option ℤ :=
  if last_penalty_date = some today then (exp, last_penalty_date)
  else
    match activity_dates.max? with
    | none => (exp, some today)
    | some last_date =>
      let inactive_days := (today - last_date) - 1
      if inactive_days > 0 then
        let penalty_days := min inactive_days 7
        let penalty := exp * (5/100) * (penalty_days : ℚ)
        if penalty > 0 then (max 0 (exp - penalty), some today)
        else (exp, some today)
      else (exp, some today)

/-! ## Challenge engine (`get_current_challenges`, `claim_challenge`) -/

/-- A challenge template (`WEEKLY_CHALLENGE_TEMPLATES` /
`MONTHLY_CHALLENGE_TEMPLATES` entries); display-only fields omitted. -/
structure ChallengeTemplate where
  key : String
  target : ℚ
  ctype : String
  reward_exp : ℕ
deriving DecidableEq, Repr

def WEEKLY_CHALLENGE_TEMPLATES : List ChallengeTemplate :=
  [⟨"w_3sessions", 3, "activity_count", 100⟩,
   ⟨"w_150min", 150, "total_minutes", 150⟩,
   ⟨"w_high_intensity", 1, "high_intensity_count", 75⟩,
   ⟨"w_variety", 3, "unique_types", 120⟩]

def MONTHLY_CHALLENGE_TEMPLATES : List ChallengeTemplate :=
  [⟨"m_20sessions", 20, "activity_count", 300⟩,
   ⟨"m_1000min", 1000, "total_minutes", 500⟩,
   ⟨"m_streak7", 7, "streak", 400⟩,
   ⟨"m_5000exp", 5000, "total_exp", 350⟩]

/-- A derived challenge instance as produced by `get_current_challenges`
(display-only fields omitted). -/
structure Challenge where
  id : String
  target : ℚ
  progress : ℚ
  reward_exp : ℕ
  completed : Bool
deriving DecidableEq, Repr

/-- The inner `progress(tmpl, acts)` function of `get_current_challenges`. -/
def challengeProgress (tmpl : ChallengeTemplate) (acts : List Activity)
    (streak : ℕ) : ℚ :=
  if tmpl.ctype = "activity_count" then (acts.length : ℚ)
  else if tmpl.ctype = "total_minutes" then
    ((acts.map (fun a => a.duration)).sum : ℕ)
  else if tmpl.ctype = "high_intensity_count" then
    ((acts.filter (fun a => a.intensity = "high")).length : ℚ)
  else if tmpl.ctype = "unique_types" then
    (((acts.map (fun a => a.exercise_type)).dedup).length : ℚ)
  else if tmpl.ctype = "streak" then (streak : ℚ)
  else if tmpl.ctype = "total_exp" then (acts.map (fun a => a.exp_gained)).sum
  else 0

/-- The weekly instance id: `f"{tmpl['key']}_{today.year}_w{week_num}"` with
`week_num = today.isocalendar()[1]` — note the *calendar* year. -/
def weeklyChallengeId (key : String) (today : Ymd) : String :=
  key ++ "_" ++ toString today.year ++ "_w" ++ toString (isoWeekNumber today)

/-- The monthly instance id: `f"{tmpl['key']}_{today.year}_{today.month}"`. -/
def monthlyChallengeId (key : String) (today : Ymd) : String :=
  key ++ "_" ++ toString today.year ++ "_" ++ toString today.month

/-- `get_activities_in_range`: calendar-date window filter (inclusive). -/
def get_activities_in_range (acts : List Activity) (start_date end_date : ℤ) :
    List Activity :=
  acts.filter (fun a => start_date ≤ a.date ∧ a.date ≤ end_date)

/-- `get_current_challenges(user_id, user)`: derives the weekly and monthly
challenge instances for `today` from the user's activity list.  The streak is
computed from the full activity history, as in the code. -/
def get_current_challenges (today : Ymd) (acts : List Activity) :
    List Challenge × List Challenge :=
  let todayOrd := toOrdinal today
  let week_start := todayOrd - ordWeekday todayOrd
  let week_end := week_start + 6
  let month_start := toOrdinal ⟨today.year, today.month, 1⟩
  let week_activities := get_activities_in_range acts week_start week_end
  let month_activities := get_activities_in_range acts month_start todayOrd
  let streak := calculate_streak ((acts.map (fun a => a.date)).toFinset) todayOrd
  let weekly := WEEKLY_CHALLENGE_TEMPLATES.map (fun tmpl =>
    let p := challengeProgress tmpl week_activities streak
    { id := weeklyChallengeId tmpl.key today, target := tmpl.target,
      progress := min p tmpl.target, reward_exp := tmpl.reward_exp,
      completed := decide (p ≥ tmpl.target) : Challenge })
  let monthly := MONTHLY_CHALLENGE_TEMPLATES.map (fun tmpl =>
    let p := challengeProgress tmpl month_activities streak
    { id := monthlyChallengeId tmpl.key today, target := tmpl.target,
      progress := min p tmpl.target, reward_exp := tmpl.reward_exp,
      completed := decide (p ≥ tmpl.target) : Challenge })
  (weekly, monthly)

/-- `claim_challenge(challenge_id)`: look the id up among the current
instances; reject (returning the user unchanged) when it is absent, not
completed, or already claimed; otherwise add the reward, run the leveling
loop, and append the id to `claimed_challenges`. -/
def claim_challenge (u : UserState) (challenge_id : String) (today : Ymd)
    (acts : List Activity) : UserState :=
  let wm := get_current_challenges today acts
  match (wm.1 ++ wm.2).find? (fun c => c.id = challenge_id) with
  | none => u
  | some target =>
    if !target.completed then u
    else if challenge_id ∈ u.claimed_challenges then u
    else
      let e := u.exp + (target.reward_exp : ℚ)
      let r := applyLeveling u.level e
      { u with exp := r.2.1, level := r.1,
               claimed_challenges := u.claimed_challenges ++ [challenge_id] }

/-! ## Activity submission, edit, delete (`add_activity`, `edit_activity`,
`delete_activity` routes — the validated POST paths) -/

/-- The validated form fields of an activity submission.  `date` is the
calendar date of `datetime.utcnow()` at creation time. -/
structure ActivityInput where
  exercise_type : String
  intensity : String
  duration : ℕ
  weight : ℚ
  has_evidence : Bool
  date : ℤ
deriving DecidableEq, Repr

/-- The validation gate of the `add_activity`/`edit_activity` POST handlers:
`exercise_type ∈ VALID_EXERCISE_TYPES`, `intensity ∈ VALID_INTENSITIES`,
`validate_positive_int(duration, 1, 1440)`, `validate_positive_float(weight,
10, 500)`. -/
def ValidActivityInput (inp : ActivityInput) : Prop :=
  inp.exercise_type ∈ VALID_EXERCISE_TYPES ∧
  inp.intensity ∈ VALID_INTENSITIES ∧
  1 ≤ inp.duration ∧ inp.duration ≤ 1440 ∧
  10 ≤ inp.weight ∧ inp.weight ≤ 500

instance (inp : ActivityInput) : Decidable (ValidActivityInput inp) := by
  unfold ValidActivityInput; infer_instance

/-- `add_activity` POST path after validation: compute the gain (including
the inline weight-change adjustment), store the activity, add the gain to
the user's EXP, update the stored weight, and run the leveling loop. -/
def add_activity (u : UserState) (inp : ActivityInput) : UserState × Activity :=
  let exp_gained := add_activity_weight_adjust u.weight inp.weight
    (calculate_exp_gain inp.duration inp.intensity inp.has_evidence
      u.player_class inp.exercise_type)
  let a : Activity :=
    { date := inp.date, exercise_type := inp.exercise_type,
      duration := inp.duration, intensity := inp.intensity,
      exp_gained := exp_gained, has_evidence := inp.has_evidence,
      weight_recorded := inp.weight }
  let r := applyLeveling u.level (u.exp + exp_gained)
  ({ u with exp := r.2.1, level := r.1, weight := some inp.weight }, a)

/-- `edit_activity` POST path after validation: recompute `exp_gained` with
`calculate_exp_gain` (the weight-change adjustment of `add_activity` is NOT
applied here), overwrite the activity's fields, and apply the EXP delta
`new − old` to the user, clamped at 0, with no leveling loop. -/
def edit_activity (u : UserState) (a : Activity) (inp : ActivityInput) :
    UserState × Activity :=
  let new_exp := calculate_exp_gain inp.duration inp.intensity inp.has_evidence
    u.player_class inp.exercise_type
  let old_exp := a.exp_gained
  let a' : Activity :=
    { a with exercise_type := inp.exercise_type, duration := inp.duration,
             intensity := inp.intensity, has_evidence := inp.has_evidence,
             weight_recorded := inp.weight, exp_gained := new_exp }
  ({ u with exp := max 0 (u.exp + (new_exp - old_exp)),
            weight := some inp.weight }, a')

/-- `delete_activity`: remove the activity and subtract its stored
`exp_gained` from the user's EXP, clamped at 0, with no leveling loop. -/
def delete_activity (u : UserState) (a : Activity) : UserState :=
  { u with exp := max 0 (u.exp - a.exp_gained) }

/-! ## Whole-system state and reachability -/

/-- One user's document plus their activity documents. -/
structure SysState where
  user : UserState
  acts : List Activity
deriving DecidableEq, Repr

def applyAdd (s : SysState) (inp : ActivityInput) : SysState :=
  let r := add_activity s.user inp
  ⟨r.1, s.acts ++ [r.2]⟩

def applyEdit (s : SysState) (i : ℕ) (inp : ActivityInput) : SysState :=
  match s.acts[i]? with
  | none => s
  | some a =>
    let r := edit_activity s.user a inp
    ⟨r.1, s.acts.set i r.2⟩

def applyDelete (s : SysState) (i : ℕ) : SysState :=
  match s.acts[i]? with
  | none => s
  | some a => ⟨delete_activity s.user a, s.acts.eraseIdx i⟩

def applyPenalty (s : SysState) (today : ℤ) : SysState :=
  let r := apply_inactivity_penalty s.user.exp s.user.last_penalty_date
    (s.acts.map (fun a => a.date)) today
  ⟨{ s.user with exp := r.1, last_penalty_date := r.2 }, s.acts⟩

def applyClaim (s : SysState) (challenge_id : String) (today : Ymd) : SysState :=
  ⟨claim_challenge s.user challenge_id today s.acts, s.acts⟩

/-- States reachable from a fresh user by the five core operations. -/
inductive Reachable : SysState → Prop
  | init : Reachable ⟨freshUser, []⟩
  | add (s : SysState) (inp : ActivityInput) :
      Reachable s → ValidActivityInput inp → Reachable (applyAdd s inp)
  | edit (s : SysState) (i : ℕ) (inp : ActivityInput) :
      Reachable s → ValidActivityInput inp → Reachable (applyEdit s i inp)
  | delete (s : SysState) (i : ℕ) : Reachable s → Reachable (applyDelete s i)
  | penalty (s : SysState) (today : ℤ) :
      Reachable s → Reachable (applyPenalty s today)
  | claim (s : SysState) (challenge_id : String) (today : Ymd) :
      Reachable s → Reachable (applyClaim s challenge_id today)

/-- States reachable without ever editing an activity. -/
inductive ReachableNoEdit : SysState → Prop
  | init : ReachableNoEdit ⟨freshUser, []⟩
  | add (s : SysState) (inp : ActivityInput) :
      ReachableNoEdit s → ValidActivityInput inp →
      ReachableNoEdit (applyAdd s inp)
  | delete (s : SysState) (i : ℕ) :
      ReachableNoEdit s → ReachableNoEdit (applyDelete s i)
  | penalty (s : SysState) (today : ℤ) :
      ReachableNoEdit s → ReachableNoEdit (applyPenalty s today)
  | claim (s : SysState) (challenge_id : String) (today : Ymd) :
      ReachableNoEdit s → ReachableNoEdit (applyClaim s challenge_id today)

/-! ## Helper lemmas: strings and decimal representations -/

theorem string_append_cancel_left {P A B : String} (h : P ++ A = P ++ B) :
    A = B := by
  have hd : P.data ++ A.data = P.data ++ B.data := by
    have h2 := congrArg String.data h
    simpa [String.data_append] using h2
  have h2 := List.append_cancel_left hd
  cases A; cases B
  exact congrArg String.mk h2

theorem toString_intCast_eq (n : ℕ) : toString ((n : ℤ)) = toString n := rfl

/-- Decimal representations of naturals below 54 are pairwise distinct
(enough for ISO week numbers 1..53 and months 1..12). -/
theorem toString_nat_inj_below_54 :
    ∀ w1 : ℕ, w1 < 54 → ∀ w2 : ℕ, w2 < 54 → toString w1 = toString w2 →
      w1 = w2 := by decide

/-! ## Claim C1: challenge instance identity across dates -/

/-- C1 counterexample: the weekly instance id uses the *calendar* year
together with the ISO week *number*.  2025-12-29 and 2026-01-01 lie in the
same ISO week (2026-W01) yet derive different identifiers, and 2024-01-01
(ISO 2024-W01) and 2024-12-31 (ISO 2025-W01) lie in different ISO weeks —
different real-world periods — yet derive the *same* identifier, so an
identifier of a new period is not always fresh. -/
theorem C1_counterexample :
    (isoYear ⟨2025, 12, 29⟩ = isoYear ⟨2026, 1, 1⟩ ∧
     isoWeekNumber ⟨2025, 12, 29⟩ = isoWeekNumber ⟨2026, 1, 1⟩ ∧
     weeklyChallengeId "w_3sessions" ⟨2025, 12, 29⟩ ≠
       weeklyChallengeId "w_3sessions" ⟨2026, 1, 1⟩) ∧
    ((isoYear ⟨2024, 1, 1⟩, isoWeekNumber ⟨2024, 1, 1⟩) ≠
       (isoYear ⟨2024, 12, 31⟩, isoWeekNumber ⟨2024, 12, 31⟩) ∧
     weeklyChallengeId "w_3sessions" ⟨2024, 1, 1⟩ =
       weeklyChallengeId "w_3sessions" ⟨2024, 12, 31⟩) := by
  decide

/-- C1 (amended): identifiers are derived from the *calendar* year plus the
ISO week number (weekly) or month (monthly).  Within one calendar year the
derivation is stable (same year and week/month give the same id) and fresh
(different week numbers ≤ 53, or different months ≤ 12, give different ids);
across a calendar-year boundary neither stability inside a year-spanning ISO
week nor freshness holds (see `C1_counterexample`). -/
theorem C1_challenge_id_amended :
    (∀ (key : String) (d1 d2 : Ymd), d1.year = d2.year →
       isoWeekNumber d1 = isoWeekNumber d2 →
       weeklyChallengeId key d1 = weeklyChallengeId key d2) ∧
    (∀ (key : String) (d1 d2 : Ymd) (w1 w2 : ℕ), d1.year = d2.year →
       isoWeekNumber d1 = (w1 : ℤ) → isoWeekNumber d2 = (w2 : ℤ) →
       w1 < 54 → w2 < 54 → w1 ≠ w2 →
       weeklyChallengeId key d1 ≠ weeklyChallengeId key d2) ∧
    (∀ (key : String) (d1 d2 : Ymd), d1.year = d2.year → d1.month = d2.month →
       monthlyChallengeId key d1 = monthlyChallengeId key d2) ∧
    (∀ (key : String) (d1 d2 : Ymd), d1.year = d2.year →
       d1.month < 13 → d2.month < 13 → d1.month ≠ d2.month →
       monthlyChallengeId key d1 ≠ monthlyChallengeId key d2) := by
  refine ⟨?_, ?_, ?_, ?_⟩
  · intro key d1 d2 hy hw
    unfold weeklyChallengeId
    rw [hy, hw]
  · intro key d1 d2 w1 w2 hy hw1 hw2 hb1 hb2 hne heq
    unfold weeklyChallengeId at heq
    rw [hy, hw1, hw2, toString_intCast_eq, toString_intCast_eq] at heq
    exact hne (toString_nat_inj_below_54 w1 hb1 w2 hb2
      (string_append_cancel_left heq))
  · intro key d1 d2 hy hm
    unfold monthlyChallengeId
    rw [hy, hm]
  · intro key d1 d2 hy hb1 hb2 hne heq
    unfold monthlyChallengeId at heq
    rw [hy] at heq
    exact hne (toString_nat_inj_below_54 d1.month (lt_trans hb1 (by norm_num))
      d2.month (lt_trans hb2 (by norm_num)) (string_append_cancel_left heq))

/-- Witness for `C1_challenge_id_amended`: 2024-03-04 and 2024-03-05 share
ISO week 10 of calendar year 2024 and derive the same weekly id; week 11
derives a different one; March 2024 derives one monthly id, April 2024 a
different one. -/
theorem C1_challenge_id_amended_witness :
    weeklyChallengeId "w_3sessions" ⟨2024, 3, 4⟩ =
      weeklyChallengeId "w_3sessions" ⟨2024, 3, 5⟩ ∧
    weeklyChallengeId "w_3sessions" ⟨2024, 3, 4⟩ ≠
      weeklyChallengeId "w_3sessions" ⟨2024, 3, 11⟩ ∧
    monthlyChallengeId "m_20sessions" ⟨2024, 3, 4⟩ =
      monthlyChallengeId "m_20sessions" ⟨2024, 3, 30⟩ ∧
    monthlyChallengeId "m_20sessions" ⟨2024, 3, 4⟩ ≠
      monthlyChallengeId "m_20sessions" ⟨2024, 4, 4⟩ :=
  ⟨C1_challenge_id_amended.1 "w_3sessions" ⟨2024, 3, 4⟩ ⟨2024, 3, 5⟩ rfl
     (by decide),
   C1_challenge_id_amended.2.1 "w_3sessions" ⟨2024, 3, 4⟩ ⟨2024, 3, 11⟩ 10 11
     rfl (by decide) (by decide) (by decide) (by decide) (by decide),
   C1_challenge_id_amended.2.2.1 "m_20sessions" ⟨2024, 3, 4⟩ ⟨2024, 3, 30⟩ rfl
     rfl,
   C1_challenge_id_amended.2.2.2 "m_20sessions" ⟨2024, 3, 4⟩ ⟨2024, 4, 4⟩ rfl
     (by decide) (by decide) (by decide)⟩

/-! ## Helper lemmas: the streak walk -/

theorem streakWalk_le_fuel : ∀ (f : ℕ) (s : Finset ℤ) (c : ℤ),
    streakWalk f s c ≤ f := by
  intro f
  induction f with
  | zero => intro s c; simp [streakWalk]
  | succ f ih =>
    intro s c
    by_cases hc : c ∈ s
    · simpa [streakWalk, hc] using ih s (c - 1)
    · simp [streakWalk, hc]

theorem streakWalk_mem : ∀ (f : ℕ) (s : Finset ℤ) (c : ℤ) (j : ℕ),
    j < streakWalk f s c → c - (j : ℤ) ∈ s := by
  intro f
  induction f with
  | zero => intro s c j hj; simp [streakWalk] at hj
  | succ f ih =>
    intro s c j hj
    by_cases hc : c ∈ s
    · simp only [streakWalk, hc, if_true] at hj
      cases j with
      | zero => simpa using hc
      | succ j =>
        have hj' : j < streakWalk f s (c - 1) := by omega
        have := ih s (c - 1) j hj'
        have harith : c - ((j + 1 : ℕ) : ℤ) = (c - 1) - (j : ℤ) := by
          push_cast; ring
        rwa [harith]
    · simp [streakWalk, hc] at hj

theorem streakWalk_stop : ∀ (f : ℕ) (s : Finset ℤ) (c : ℤ),
    streakWalk f s c < f → c - (streakWalk f s c : ℤ) ∉ s := by
  intro f
  induction f with
  | zero => intro s c h; omega
  | succ f ih =>
    intro s c h
    by_cases hc : c ∈ s
    · simp only [streakWalk, hc, if_true] at h ⊢
      have h' : streakWalk f s (c - 1) < f := by omega
      have := ih s (c - 1) h'
      have harith : c - ((streakWalk f s (c - 1) + 1 : ℕ) : ℤ)
          = (c - 1) - (streakWalk f s (c - 1) : ℤ) := by push_cast; ring
      rwa [harith]
    · simp only [streakWalk, hc, if_false]
      simpa using hc

/-- The walk cannot return more than the number of distinct dates: a run of
length `k` exhibits `k` distinct members of `s`. -/
theorem streakWalk_le_card (s : Finset ℤ) (c : ℤ) (f : ℕ) :
    streakWalk f s c ≤ s.card := by
  set k := streakWalk f s c with hk
  by_contra hlt
  push_neg at hlt
  have hsub : (Finset.range k).image (fun j : ℕ => c - (j : ℤ)) ⊆ s := by
    intro x hx
    obtain ⟨j, hj, rfl⟩ := Finset.mem_image.mp hx
    exact streakWalk_mem f s c j (by simpa using hj)
  have hinj : Set.InjOn (fun j : ℕ => c - (j : ℤ)) (Finset.range k) := by
    intro a _ b _ hab
    simp only at hab
    omega
  have hcard : ((Finset.range k).image (fun j : ℕ => c - (j : ℤ))).card = k := by
    rw [Finset.card_image_of_injOn hinj, Finset.card_range]
  have := Finset.card_le_card hsub
  omega

/-! ## Claim C7: the streak computation -/

/-- C7: the streak is 0 on an empty date set and when the most recent
activity is more than one day old; otherwise, starting from today when today
has an activity and from the most recent date otherwise, it is the length of
the maximal backward run of consecutive dates in the set: every day of the
run is present and the day right before the run is absent.  (Hence one
missed day resets it, while a day without an activity yet does not.) -/
theorem C7_calculate_streak :
    ∀ (s : Finset ℤ) (today : ℤ),
      (s = ∅ → calculate_streak s today = 0) ∧
      (∀ h : s.Nonempty, today - s.max' h > 1 → calculate_streak s today = 0) ∧
      (∀ h : s.Nonempty, today - s.max' h ≤ 1 →
        (∀ j : ℕ, j < calculate_streak s today →
          (if today ∈ s then today else s.max' h) - (j : ℤ) ∈ s) ∧
        (if today ∈ s then today else s.max' h) -
          (calculate_streak s today : ℤ) ∉ s) := by
  intro s today
  refine ⟨?_, ?_, ?_⟩
  · intro hs
    simp [calculate_streak, hs]
  · intro h hgap
    have hne : s.Nonempty := h
    unfold calculate_streak
    rw [dif_pos hne, if_pos hgap]
  · intro h hle
    have hval : calculate_streak s today =
        streakWalk (s.card + 1) s (if today ∈ s then today else s.max' h) := by
      unfold calculate_streak
      rw [dif_pos h, if_neg (not_lt.mpr hle)]
    constructor
    · intro j hj
      rw [hval] at hj
      exact streakWalk_mem _ _ _ _ hj
    · rw [hval]
      exact streakWalk_stop _ _ _
        (Nat.lt_succ_of_le (streakWalk_le_card s _ _))

/-- Witness for `C7_calculate_streak`: dates {d, d−1, d−2} with `today = d`
give streak 3 (unbroken run), and the lone date `d−2` gives streak 0
(gap > 1 day). -/
theorem C7_calculate_streak_witness :
    calculate_streak (([10, 9, 8] : List ℤ).toFinset) 10 = 3 ∧
    (∀ j : ℕ, j < calculate_streak (([10, 9, 8] : List ℤ).toFinset) 10 →
      (10 : ℤ) - (j : ℤ) ∈ (([10, 9, 8] : List ℤ).toFinset)) ∧
    (10 : ℤ) - (calculate_streak (([10, 9, 8] : List ℤ).toFinset) 10 : ℤ) ∉
      (([10, 9, 8] : List ℤ).toFinset) ∧
    calculate_streak (([8] : List ℤ).toFinset) 10 = 0 := by
  have h3 := (C7_calculate_streak (([10, 9, 8] : List ℤ).toFinset) 10).2.2
    (by decide) (by decide)
  have h0 := (C7_calculate_streak (([8] : List ℤ).toFinset) 10).2.1
    (by decide) (by decide)
  refine ⟨by decide, ?_, ?_, h0⟩
  · intro j hj
    have := h3.1 j hj
    simpa using this
  · have := h3.2
    simpa using this

/-! ## Claim C6: the inactivity penalty -/

/-- C6: with non-negative EXP — an invariant of the system — the penalty
call is a same-day no-op when `last_penalty_date` is today; only stamps the
date when there is no activity history; leaves EXP unchanged (stamping the
date) when `inactiveDays = (today − lastActivityDate) − 1 ≤ 0`; and otherwise
sets EXP to `max(0, exp − exp·0.05·min(inactiveDays, 7))` and stamps the
date. -/
theorem C6_apply_inactivity_penalty (exp : ℚ) (last_penalty_date : Option ℤ)
    (activity_dates : List ℤ) (today : ℤ) (hexp : 0 ≤ exp) :
    (last_penalty_date = some today →
      apply_inactivity_penalty exp last_penalty_date activity_dates today
        = (exp, last_penalty_date)) ∧
    (last_penalty_date ≠ some today → activity_dates = [] →
      apply_inactivity_penalty exp last_penalty_date activity_dates today
        = (exp, some today)) ∧
    (last_penalty_date ≠ some today → ∀ last : ℤ,
      activity_dates.max? = some last →
      ((today - last) - 1 ≤ 0 →
        apply_inactivity_penalty exp last_penalty_date activity_dates today
          = (exp, some today)) ∧
      (0 < (today - last) - 1 →
        apply_inactivity_penalty exp last_penalty_date activity_dates today
          = (max 0 (exp - exp * (5/100) * (min ((today - last) - 1) 7 : ℤ)),
             some today))) := by
  refine ⟨?_, ?_, ?_⟩
  · intro hsame
    simp [apply_inactivity_penalty, hsame]
  · intro hdiff hempty
    simp [apply_inactivity_penalty, hdiff, hempty]
  · intro hdiff last hlast
    constructor
    · intro hinact
      unfold apply_inactivity_penalty
      rw [if_neg hdiff, hlast]
      simp only [if_neg (not_lt.mpr hinact)]
    · intro hinact
      unfold apply_inactivity_penalty
      rw [if_neg hdiff, hlast]
      simp only [if_pos hinact]
      rcases eq_or_lt_of_le hexp with hzero | hpos
      · have hpen : exp * (5/100) * ((min ((today - last) - 1) 7 : ℤ) : ℚ) = 0 := by
          rw [← hzero]; ring
        rw [if_neg (by rw [hpen]; exact lt_irrefl 0)]
        rw [← hzero]
        simp
      · have hmin : (1 : ℤ) ≤ min ((today - last) - 1) 7 := by omega
        have hminq : (1 : ℚ) ≤ ((min ((today - last) - 1) 7 : ℤ) : ℚ) := by
          exact_mod_cast hmin
        have hpen : 0 < exp * (5/100) * ((min ((today - last) - 1) 7 : ℤ) : ℚ) := by
          have h1 : (0:ℚ) < exp * (5/100) := by positivity
          nlinarith
        rw [if_pos hpen]

/-- Witness for `C6_apply_inactivity_penalty`: the spec's example — EXP 1000,
last activity 3 days ago, `last_penalty_date` unset — yields
`inactiveDays = 2`, penalty 100, new EXP 900, date stamped; re-running on the
same day is then a no-op. -/
theorem C6_apply_inactivity_penalty_witness :
    apply_inactivity_penalty 1000 none [7] 10 = (900, some 10) ∧
    apply_inactivity_penalty 900 (some 10) [7] 10 = (900, some 10) := by
  have h1 := ((C6_apply_inactivity_penalty 1000 none [7] 10 (by norm_num)).2.2
    (by simp) 7 (by decide)).2 (by decide)
  have h2 := (C6_apply_inactivity_penalty 900 (some 10) [7] 10
    (by norm_num)).1 rfl
  constructor
  · rw [h1]
    norm_num
  · exact h2

/-! ## Claim C8: the EXP-gain formula -/

/-- The spec's §4.1 `expGain` formula, written as the claim states it: a
product of the duration, the intensity multiplier (low 1, medium 1.5, high 2,
unknown 1), 1.2 for evidence, 1.3 when the selected class's specialty set
contains the exercise type, and the weight-change factor (1.1 when the new
weight is lower than the previous one, 0.9 when higher, 1 when equal or when
no previous weight exists). -/
def spec_expGain (duration : ℕ) (intensity : String) (hasEvidence : Bool)
    (player_class : Option String) (exercise_type : String)
    (prev_weight : Option ℚ) (new_weight : ℚ) : ℚ :=
  let m : ℚ :=
    if intensity = "low" then 1
    else if intensity = "medium" then 3/2
    else if intensity = "high" then 2
    else 1
  let ev : ℚ := if hasEvidence then 12/10 else 1
  let cl : ℚ :=
    match player_class with
    | some pc =>
      match PLAYER_CLASSES.find? (fun c => c.1 = pc) with
      | some c => if exercise_type ∈ c.2.1 then 13/10 else 1
      | none => 1
    | none => 1
  let w : ℚ :=
    match prev_weight with
    | some pw =>
      if new_weight < pw then 11/10
      else if pw < new_weight then 9/10
      else 1
    | none => 1
  (duration : ℚ) * m * ev * cl * w

theorem valid_exercise_types_ne_empty :
    ∀ t ∈ VALID_EXERCISE_TYPES, t ≠ "" := by decide

theorem player_classes_bonus :
    ∀ c ∈ PLAYER_CLASSES, c.2.2 = 3/10 := by
  intro c hc
  fin_cases hc <;> norm_num

theorem calculate_exp_gain_nonneg (duration : ℕ) (intensity : String)
    (has_evidence : Bool) (player_class : Option String)
    (exercise_type : String) :
    0 ≤ calculate_exp_gain duration intensity has_evidence player_class
      exercise_type := by
  unfold calculate_exp_gain
  rcases player_class with _ | pc
  · dsimp only
    split_ifs <;> positivity
  · dsimp only
    rcases hfind : PLAYER_CLASSES.find? (fun c => c.1 = pc) with _ | c
    · rw [hfind]
      split_ifs <;> positivity
    · have hb := player_classes_bonus c (List.mem_of_find?_eq_some hfind)
      rw [hfind]
      dsimp only
      rw [hb]
      split_ifs <;> positivity

theorem add_activity_weight_adjust_nonneg (prev_weight : Option ℚ)
    (new_weight g : ℚ) (hg : 0 ≤ g) :
    0 ≤ add_activity_weight_adjust prev_weight new_weight g := by
  unfold add_activity_weight_adjust
  rcases prev_weight with _ | pw
  · exact hg
  · dsimp only
    split_ifs <;> first
      | exact hg
      | exact mul_nonneg hg (by norm_num)

/-- `calculate_exp_gain` equals the first three steps of the spec formula
(no previous weight ⇒ weight factor 1), whenever the exercise type is a
non-empty name. -/
theorem calculate_exp_gain_eq_spec (duration : ℕ) (intensity : String)
    (has_evidence : Bool) (player_class : Option String)
    (exercise_type : String) (new_weight : ℚ) (hne : exercise_type ≠ "") :
    calculate_exp_gain duration intensity has_evidence player_class
        exercise_type
      = spec_expGain duration intensity has_evidence player_class
          exercise_type none new_weight := by
  unfold calculate_exp_gain spec_expGain
  dsimp only
  rw [if_pos hne]
  rcases player_class with _ | pc
  · dsimp only
    split_ifs <;> ring
  · dsimp only
    rcases hfind : PLAYER_CLASSES.find? (fun c => c.1 = pc) with _ | c
    · rw [hfind]
      split_ifs <;> ring
    · have hb := player_classes_bonus c (List.mem_of_find?_eq_some hfind)
      rw [hfind]
      dsimp only
      rw [hb]
      split_ifs <;> ring

/-- C8: the EXP gain of an activity submission — `calculate_exp_gain`
followed by `add_activity`'s inline weight-change adjustment — equals the
spec formula, and is non-negative.  The hypotheses reflect the submission
validation: the exercise type is one of the valid (non-empty) names and a
stored previous weight is in 10..500 (hence non-zero, so Python's truthiness
test `if current_user.weight` means "has a previous weight"). -/
theorem C8_exp_gain (duration : ℕ) (intensity : String) (has_evidence : Bool)
    (player_class : Option String) (exercise_type : String)
    (prev_weight : Option ℚ) (new_weight : ℚ)
    (het : exercise_type ∈ VALID_EXERCISE_TYPES)
    (hw : ∀ pw, prev_weight = some pw → 10 ≤ pw ∧ pw ≤ 500) :
    add_activity_weight_adjust prev_weight new_weight
        (calculate_exp_gain duration intensity has_evidence player_class
          exercise_type)
      = spec_expGain duration intensity has_evidence player_class
          exercise_type prev_weight new_weight ∧
    0 ≤ add_activity_weight_adjust prev_weight new_weight
        (calculate_exp_gain duration intensity has_evidence player_class
          exercise_type) := by
  have hne : exercise_type ≠ "" := valid_exercise_types_ne_empty _ het
  have hgain := calculate_exp_gain_eq_spec duration intensity has_evidence
    player_class exercise_type new_weight hne
  constructor
  · unfold add_activity_weight_adjust
    rcases prev_weight with _ | pw
    · rw [hgain]
    · dsimp only
      have hpw := hw pw rfl
      have hpw0 : pw ≠ 0 := by
        intro h0; rw [h0] at hpw; linarith [hpw.1]
      rw [if_pos hpw0, hgain]
      unfold spec_expGain
      dsimp only
      rcases lt_trichotomy new_weight pw with hlt | heq | hgt
      · rw [if_pos (by linarith : pw - new_weight > 0), if_pos hlt]
        ring
      · rw [heq]
        rw [if_neg (by simp : ¬ pw - pw > 0), if_neg (by simp : ¬ pw - pw < 0),
          if_neg (lt_irrefl pw), if_neg (lt_irrefl pw)]
      · rw [if_neg (by push_neg; linarith : ¬ pw - new_weight > 0),
          if_pos (by linarith : pw - new_weight < 0),
          if_neg (by push_neg; linarith : ¬ new_weight < pw), if_pos hgt]
        ring
  · exact add_activity_weight_adjust_nonneg prev_weight new_weight _
      (calculate_exp_gain_nonneg duration intensity has_evidence
        player_class exercise_type)

/-- Witness for `C8_exp_gain`: the spec's example
`expGain(60, medium, no evidence, no class) = 90`, and
`expGain(60, high, evidence, no class) = 144` with a previous weight of 80
and a new weight of 78 giving `144 × 1.1 = 158.4`. -/
theorem C8_exp_gain_witness :
    add_activity_weight_adjust none 70
        (calculate_exp_gain 60 "medium" false none "Cardio") = 90 ∧
    add_activity_weight_adjust (some 80) 78
        (calculate_exp_gain 60 "high" true none "Cardio") = 792/5 := by
  have h1 := (C8_exp_gain 60 "medium" false none "Cardio" none 70
    (by decide) (by intro pw h; cases h)).1
  have h2 := (C8_exp_gain 60 "high" true none "Cardio" (some 80) 78
    (by decide) (by intro pw h; cases h; norm_num)).1
  constructor
  · rw [h1]
    simp [spec_expGain]
    norm_num
  · rw [h2]
    simp [spec_expGain]
    norm_num

/-! ## Claim C9: `expForNextLevel` and the leveling loop -/

/-- `math.floor(100 * level ** 1.5)` really is `Nat.sqrt (10000 * level³)`:
`100·l^1.5 = √(10000·l³)`, and the floor of the real square root of a
natural number is its integer square root. -/
theorem expNext_eq_floor (l : ℕ) :
    (calculate_exp_for_next_level l : ℤ) = ⌊(100 : ℝ) * (l : ℝ) ^ (1.5 : ℝ)⌋ := by
  have hrw : (100 : ℝ) * (l : ℝ) ^ (1.5 : ℝ)
      = Real.sqrt ((10000 * l ^ 3 : ℕ) : ℝ) := by
    have h1 : (1.5 : ℝ) = ((3 : ℕ) : ℝ) * (1/2 : ℝ) := by norm_num
    rw [h1, Real.rpow_mul (Nat.cast_nonneg l), Real.rpow_natCast,
      ← Real.sqrt_eq_rpow]
    rw [show (100 : ℝ) = Real.sqrt (100 ^ 2) from
      (Real.sqrt_sq (by norm_num : (0:ℝ) ≤ 100)).symm]
    rw [← Real.sqrt_mul (by positivity)]
    congr 1
    push_cast
    ring
  rw [hrw]
  have hle : (((Nat.sqrt (10000 * l ^ 3) : ℤ)) : ℝ)
      ≤ Real.sqrt ((10000 * l ^ 3 : ℕ) : ℝ) := by
    have h1 : (((Nat.sqrt (10000 * l ^ 3) : ℕ)) : ℝ) ^ 2
        ≤ ((10000 * l ^ 3 : ℕ) : ℝ) := by
      exact_mod_cast Nat.sqrt_le' (10000 * l ^ 3)
    push_cast
    rw [show ((Nat.sqrt (10000 * l ^ 3) : ℕ) : ℝ)
        = Real.sqrt (((Nat.sqrt (10000 * l ^ 3) : ℕ) : ℝ) ^ 2) from
      (Real.sqrt_sq (by positivity)).symm]
    exact Real.sqrt_le_sqrt (by exact_mod_cast h1)
  have hlt : Real.sqrt ((10000 * l ^ 3 : ℕ) : ℝ)
      < ((Nat.sqrt (10000 * l ^ 3) : ℤ) : ℝ) + 1 := by
    have h2 : ((10000 * l ^ 3 : ℕ) : ℝ)
        < (((Nat.sqrt (10000 * l ^ 3) + 1 : ℕ)) : ℝ) ^ 2 := by
      exact_mod_cast Nat.lt_succ_sqrt' (10000 * l ^ 3)
    calc Real.sqrt ((10000 * l ^ 3 : ℕ) : ℝ)
        < Real.sqrt ((((Nat.sqrt (10000 * l ^ 3) + 1 : ℕ)) : ℝ) ^ 2) :=
          Real.sqrt_lt_sqrt (by positivity) h2
      _ = (((Nat.sqrt (10000 * l ^ 3) + 1 : ℕ)) : ℝ) :=
          Real.sqrt_sq (by positivity)
      _ = ((Nat.sqrt (10000 * l ^ 3) : ℤ) : ℝ) + 1 := by push_cast; ring
  exact ((Int.floor_eq_iff).mpr ⟨hle, hlt⟩).symm

/-- C9: `expForNextLevel(level) = floor(100·level^1.5)`; the leveling loop's
result is independent of the (sufficient) fuel — it terminates — leaving EXP
below the new level's threshold; the final level is at least the initial
one, with one level-up message per level crossed (`[l+1, …, l']`); and a
user at level 1 with EXP 95 gaining 10 ends at level 2 with EXP 5. -/
theorem C9_leveling :
    (∀ l : ℕ, (calculate_exp_for_next_level l : ℤ)
        = ⌊(100 : ℝ) * (l : ℝ) ^ (1.5 : ℝ)⌋) ∧
    (∀ (l f : ℕ) (e : ℚ), 1 ≤ l → e < 100 * f →
      levelUpLoop f l e = applyLeveling l e ∧
      (applyLeveling l e).2.1
        < (calculate_exp_for_next_level (applyLeveling l e).1 : ℚ) ∧
      l ≤ (applyLeveling l e).1 ∧
      (applyLeveling l e).2.2
        = List.range' (l + 1) ((applyLeveling l e).1 - l)) ∧
    applyLeveling 1 (95 + 10) = (2, 5, [2]) := by
  refine ⟨expNext_eq_floor, ?_, ?_⟩
  · intro l f e hl hf
    have hcongr := levelUpLoop_fuel_congr f (levelFuel e) l e hl hf
      (lt_hundred_mul_levelFuel e)
    have hspec := levelUpLoop_spec (levelFuel e) l e hl
      (lt_hundred_mul_levelFuel e)
    simp only at hspec
    exact ⟨hcongr, hspec.2.1, hspec.1, hspec.2.2.2⟩
  · have he : (95 : ℚ) + 10 = 105 := by norm_num
    rw [he]
    have h1 : applyLeveling 2 5 = (2, 5, []) :=
      applyLeveling_stop (by rw [expNext_two]; norm_num)
    rw [applyLeveling_step le_rfl (by rw [expNext_one]; norm_num), expNext_one]
    norm_num [h1]

/-- Witness for `C9_leveling`: level 5 needs `⌊100·5^1.5⌋ = 1118` EXP, and
at level 1 with EXP 5 the loop does not run regardless of fuel. -/
theorem C9_leveling_witness :
    (1118 : ℤ) = ⌊(100 : ℝ) * ((5 : ℕ) : ℝ) ^ (1.5 : ℝ)⌋ ∧
    levelUpLoop 1 1 5 = applyLeveling 1 5 := by
  constructor
  · have h := C9_leveling.1 5
    rw [expNext_five] at h
    exact h
  · exact (C9_leveling.2.1 1 1 5 le_rfl (by norm_num)).1

/-! ## Claim C2: create-then-delete round trip -/

/-- C2 counterexample: a user at level 1 with EXP 95 logs a 10-minute
low-intensity activity (gain 10).  The leveling loop fires (level 2, EXP 5);
deleting the activity then clamps `max(0, 5 − 10) = 0 ≠ 95`, so creation
followed by deletion does not return the EXP to its pre-creation value when
a level-up happened in between. -/
theorem C2_counterexample :
    (delete_activity
        (add_activity ⟨1, 95, none, none, none, []⟩
          ⟨"Cardio", "low", 10, 70, false, 0⟩).1
        (add_activity ⟨1, 95, none, none, none, []⟩
          ⟨"Cardio", "low", 10, 70, false, 0⟩).2).exp = 0 ∧
    (UserState.mk 1 95 none none none []).exp = 95 ∧ (0 : ℚ) ≠ 95 := by
  have hg : add_activity_weight_adjust none 70
      (calculate_exp_gain 10 "low" false none "Cardio") = 10 := by
    simp [add_activity_weight_adjust, calculate_exp_gain]
  have hlev : applyLeveling 1 ((95 : ℚ) + 10) = (2, 5, [2]) := by
    have h105 : (95 : ℚ) + 10 = 105 := by norm_num
    rw [h105]
    have h1 : applyLeveling 2 5 = (2, 5, []) :=
      applyLeveling_stop (by rw [expNext_two]; norm_num)
    rw [applyLeveling_step le_rfl (by rw [expNext_one]; norm_num), expNext_one]
    norm_num [h1]
  have hadd : add_activity ⟨1, 95, none, none, none, []⟩
        ⟨"Cardio", "low", 10, 70, false, 0⟩
      = (⟨2, 5, some 70, none, none, []⟩,
         ⟨0, "Cardio", 10, "low", 10, false, 70⟩) := by
    unfold add_activity
    dsimp only
    rw [hg, hlev]
  rw [hadd]
  refine ⟨?_, rfl, by norm_num⟩
  unfold delete_activity
  norm_num

/-- C2 (amended): creating an activity and then deleting it returns the
user's EXP to its pre-creation value (exactly, in the rational model of
float arithmetic) provided the user's EXP is non-negative and the creation
does not cross the current level's threshold (no level-up).  When a level-up
occurs, deletion does not restore the EXP (`C2_counterexample`). -/
theorem C2_add_delete_amended (u : UserState) (inp : ActivityInput)
    (h0 : 0 ≤ u.exp)
    (hnl : u.exp + add_activity_weight_adjust u.weight inp.weight
        (calculate_exp_gain inp.duration inp.intensity inp.has_evidence
          u.player_class inp.exercise_type)
      < (calculate_exp_for_next_level u.level : ℚ)) :
    (delete_activity (add_activity u inp).1 (add_activity u inp).2).exp
      = u.exp := by
  unfold add_activity delete_activity
  dsimp only
  rw [applyLeveling_stop hnl]
  dsimp only
  rw [add_sub_cancel_right]
  exact max_eq_right h0

/-- Witness for `C2_add_delete_amended`: EXP 50, gain 10, `50 + 10 < 100`,
so deletion restores EXP 50. -/
theorem C2_add_delete_amended_witness :
    (delete_activity
        (add_activity ⟨1, 50, none, none, none, []⟩
          ⟨"Cardio", "low", 10, 70, false, 0⟩).1
        (add_activity ⟨1, 50, none, none, none, []⟩
          ⟨"Cardio", "low", 10, 70, false, 0⟩).2).exp = 50 :=
  C2_add_delete_amended ⟨1, 50, none, none, none, []⟩
    ⟨"Cardio", "low", 10, 70, false, 0⟩ (by norm_num)
    (by
      have hg : add_activity_weight_adjust none 70
          (calculate_exp_gain 10 "low" false none "Cardio") = 10 := by
        simp [add_activity_weight_adjust, calculate_exp_gain]
      dsimp only
      rw [hg, expNext_one]
      norm_num)

/-! ## Claim C4: the edit path -/

/-- C4 counterexample: a user with a previous weight of 100 edits an
activity to record a new weight of 90 (weight loss), 60 minutes, medium
intensity, no evidence, no class.  The full §4.1 formula with weight step 4
would give `90 × 1.1 = 99`, but `edit_activity` recomputes the gain without
the weight-change step and stores 90. -/
theorem C4_counterexample :
    (edit_activity ⟨1, 0, some 100, none, none, []⟩
        ⟨0, "Cardio", 60, "medium", 90, false, 100⟩
        ⟨"Cardio", "medium", 60, 90, false, 0⟩).2.exp_gained = 90 ∧
    spec_expGain 60 "medium" false none "Cardio" (some 100) 90 = 99 ∧
    (90 : ℚ) ≠ 99 := by
  refine ⟨?_, ?_, by norm_num⟩
  · unfold edit_activity
    dsimp only
    simp [calculate_exp_gain]
    norm_num
  · simp [spec_expGain]
    norm_num

/-- C4 (amended): after an edit with valid attributes the stored
`exp_gained` is the §4.1 computation on the new attributes *without* the
weight-change step 4 (intensity multiplier, evidence bonus and class bonus
only); the user's EXP becomes `max(0, exp + (new − old))`; and the level is
unchanged (no leveling loop). -/
theorem C4_edit_amended (u : UserState) (a : Activity) (inp : ActivityInput)
    (het : inp.exercise_type ∈ VALID_EXERCISE_TYPES) :
    (edit_activity u a inp).2.exp_gained
      = spec_expGain inp.duration inp.intensity inp.has_evidence
          u.player_class inp.exercise_type none inp.weight ∧
    (edit_activity u a inp).1.exp
      = max 0 (u.exp + ((edit_activity u a inp).2.exp_gained
          - a.exp_gained)) ∧
    (edit_activity u a inp).1.level = u.level := by
  have hne := valid_exercise_types_ne_empty _ het
  exact ⟨calculate_exp_gain_eq_spec inp.duration inp.intensity
    inp.has_evidence u.player_class inp.exercise_type inp.weight hne,
    rfl, rfl⟩

/-- Witness for `C4_edit_amended`: a user with EXP 100 edits a 90-EXP
activity into 30 minutes of high-intensity evidenced weights:
new gain `30×2×1.2 = 72`, EXP `max(0, 100 + (72 − 90)) = 82`, level
unchanged. -/
theorem C4_edit_amended_witness :
    (edit_activity ⟨1, 100, some 100, none, none, []⟩
        ⟨0, "Cardio", 60, "medium", 90, false, 100⟩
        ⟨"Pesas", "high", 30, 100, true, 0⟩).2.exp_gained = 72 ∧
    (edit_activity ⟨1, 100, some 100, none, none, []⟩
        ⟨0, "Cardio", 60, "medium", 90, false, 100⟩
        ⟨"Pesas", "high", 30, 100, true, 0⟩).1.exp = 82 ∧
    (edit_activity ⟨1, 100, some 100, none, none, []⟩
        ⟨0, "Cardio", 60, "medium", 90, false, 100⟩
        ⟨"Pesas", "high", 30, 100, true, 0⟩).1.level = 1 := by
  obtain ⟨h1, h2, h3⟩ := C4_edit_amended ⟨1, 100, some 100, none, none, []⟩
    ⟨0, "Cardio", 60, "medium", 90, false, 100⟩
    ⟨"Pesas", "high", 30, 100, true, 0⟩ (by decide)
  have hval : spec_expGain 30 "high" true none "Pesas" none (100 : ℚ)
      = 72 := by
    simp [spec_expGain]
    norm_num
  refine ⟨?_, ?_, h3⟩
  · rw [h1]
    exact hval
  · rw [h2, h1, hval]
    norm_num

/-! ## Claim C3: the EXP invariant -/

/-- The inactivity penalty never increases EXP and keeps it non-negative. -/
theorem apply_inactivity_penalty_le (exp : ℚ) (lp : Option ℤ)
    (dates : List ℤ) (today : ℤ) (h0 : 0 ≤ exp) :
    0 ≤ (apply_inactivity_penalty exp lp dates today).1 ∧
    (apply_inactivity_penalty exp lp dates today).1 ≤ exp := by
  unfold apply_inactivity_penalty
  by_cases h1 : lp = some today
  · rw [if_pos h1]
    exact ⟨h0, le_rfl⟩
  · rw [if_neg h1]
    cases hmax : dates.max? with
    | none => exact ⟨h0, le_rfl⟩
    | some last =>
      dsimp only
      split_ifs with h2 h3
      · exact ⟨le_max_left _ _, max_le h0 (by linarith)⟩
      · exact ⟨h0, le_rfl⟩
      · exact ⟨h0, le_rfl⟩

/-- The conjunction of state facts preserved by every no-edit operation:
level ≥ 1, EXP non-negative and below the current level's threshold, and
every stored activity has a non-negative `exp_gained`. -/
def GoodState (s : SysState) : Prop :=
  1 ≤ s.user.level ∧ 0 ≤ s.user.exp ∧
  s.user.exp < (calculate_exp_for_next_level s.user.level : ℚ) ∧
  ∀ a ∈ s.acts, 0 ≤ a.exp_gained

/-- The result of `applyLeveling` from a good starting point is good. -/
theorem applyLeveling_good {l : ℕ} {e : ℚ} (hl : 1 ≤ l) (he : 0 ≤ e) :
    1 ≤ (applyLeveling l e).1 ∧ 0 ≤ (applyLeveling l e).2.1 ∧
    (applyLeveling l e).2.1
      < (calculate_exp_for_next_level (applyLeveling l e).1 : ℚ) := by
  have h := levelUpLoop_spec (levelFuel e) l e hl (lt_hundred_mul_levelFuel e)
  simp only at h
  exact ⟨le_trans hl h.1, h.2.2.1 he, h.2.1⟩

/-- `claim_challenge` either rejects (user unchanged) or adds some reward
and runs the leveling loop, appending the id to the claimed list. -/
theorem claim_challenge_cases (u : UserState) (cid : String) (today : Ymd)
    (acts : List Activity) :
    claim_challenge u cid today acts = u ∨
    ∃ n : ℕ, claim_challenge u cid today acts
      = { u with exp := (applyLeveling u.level (u.exp + (n : ℚ))).2.1,
                 level := (applyLeveling u.level (u.exp + (n : ℚ))).1,
                 claimed_challenges := u.claimed_challenges ++ [cid] } := by
  unfold claim_challenge
  dsimp only
  cases hfind : ((get_current_challenges today acts).1
      ++ (get_current_challenges today acts).2).find?
      (fun c => c.id = cid) with
  | none => exact Or.inl rfl
  | some target =>
    dsimp only
    cases hc : target.completed with
    | false =>
      exact Or.inl (by simp)
    | true =>
      by_cases hmem : cid ∈ u.claimed_challenges
      · exact Or.inl (by simp [hmem])
      · right
        refine ⟨target.reward_exp, ?_⟩
        simp [hmem]

theorem reachableNoEdit_good : ∀ s : SysState, ReachableNoEdit s →
    GoodState s := by
  intro s h
  induction h with
  | init =>
    refine ⟨le_rfl, le_rfl, ?_, by simp⟩
    show (0 : ℚ) < (calculate_exp_for_next_level 1 : ℚ)
    rw [expNext_one]
    norm_num
  | add s inp _ _ ih =>
    obtain ⟨hlvl, hexp, hlt, hacts⟩ := ih
    have hg : 0 ≤ add_activity_weight_adjust s.user.weight inp.weight
        (calculate_exp_gain inp.duration inp.intensity inp.has_evidence
          s.user.player_class inp.exercise_type) :=
      add_activity_weight_adjust_nonneg _ _ _
        (calculate_exp_gain_nonneg _ _ _ _ _)
    have hgood := applyLeveling_good hlvl (by linarith :
      (0:ℚ) ≤ s.user.exp + add_activity_weight_adjust s.user.weight inp.weight
        (calculate_exp_gain inp.duration inp.intensity inp.has_evidence
          s.user.player_class inp.exercise_type))
    refine ⟨hgood.1, hgood.2.1, hgood.2.2, ?_⟩
    intro a ha
    rcases List.mem_append.mp ha with ha | ha
    · exact hacts a ha
    · rcases List.mem_singleton.mp ha with rfl
      exact hg
  | delete s i _ ih =>
    obtain ⟨hlvl, hexp, hlt, hacts⟩ := ih
    unfold applyDelete
    cases hget : s.acts[i]? with
    | none => exact ⟨hlvl, hexp, hlt, hacts⟩
    | some a =>
      have hmem : a ∈ s.acts := by
        have := List.getElem?_eq_some.mp hget
        obtain ⟨hi, rfl⟩ := this
        exact List.getElem_mem hi
      have hga : 0 ≤ a.exp_gained := hacts a hmem
      refine ⟨hlvl, le_max_left _ _, ?_, ?_⟩
      · exact lt_of_le_of_lt (max_le (by linarith) (by linarith)) hlt
      · intro a' ha'
        exact hacts a' (List.eraseIdx_subset _ _ ha')
  | penalty s today _ ih =>
    obtain ⟨hlvl, hexp, hlt, hacts⟩ := ih
    have hb := apply_inactivity_penalty_le s.user.exp s.user.last_penalty_date
      (s.acts.map (fun a => a.date)) today hexp
    exact ⟨hlvl, hb.1, lt_of_le_of_lt hb.2 hlt, hacts⟩
  | claim s cid today _ ih =>
    obtain ⟨hlvl, hexp, hlt, hacts⟩ := ih
    show GoodState ⟨claim_challenge s.user cid today s.acts, s.acts⟩
    rcases claim_challenge_cases s.user cid today s.acts with heq | ⟨n, heq⟩
    · rw [heq]
      exact ⟨hlvl, hexp, hlt, hacts⟩
    · rw [heq]
      have hgood := applyLeveling_good hlvl (by positivity :
        (0:ℚ) ≤ s.user.exp + (n : ℚ))
      exact ⟨hgood.1, hgood.2.1, hgood.2.2, hacts⟩

/-- C3 counterexample: the invariant `exp < expForNextLevel(level)` fails on
a reachable state.  A fresh user logs a 60-minute medium activity (gain 90,
no level-up), then edits it to 1440 minutes of high intensity with evidence
(gain 3456): the edit applies the delta without running the leveling loop,
leaving EXP 3456 at level 1 where the threshold is 100. -/
theorem C3_counterexample :
    ¬ (∀ s : SysState, Reachable s →
        s.user.exp < (calculate_exp_for_next_level s.user.level : ℚ)) := by
  intro hall
  have hv1 : ValidActivityInput ⟨"Cardio", "medium", 60, 70, false, 0⟩ :=
    ⟨by decide, by decide, by decide, by decide, by norm_num, by norm_num⟩
  have hv2 : ValidActivityInput ⟨"Cardio", "high", 1440, 70, true, 0⟩ :=
    ⟨by decide, by decide, by decide, by decide, by norm_num, by norm_num⟩
  have hreach : Reachable (applyEdit
      (applyAdd ⟨freshUser, []⟩ ⟨"Cardio", "medium", 60, 70, false, 0⟩) 0
      ⟨"Cardio", "high", 1440, 70, true, 0⟩) :=
    Reachable.edit _ 0 _ (Reachable.add _ _ Reachable.init hv1) hv2
  have hg90 : add_activity_weight_adjust none 70
      (calculate_exp_gain 60 "medium" false none "Cardio") = 90 := by
    simp [add_activity_weight_adjust, calculate_exp_gain]
    norm_num
  have hstop : applyLeveling 1 ((0 : ℚ) + 90) = (1, 90, []) := by
    rw [(by norm_num : (0 : ℚ) + 90 = 90)]
    exact applyLeveling_stop (by rw [expNext_one]; norm_num)
  have hadd : applyAdd ⟨freshUser, []⟩ ⟨"Cardio", "medium", 60, 70, false, 0⟩
      = ⟨⟨1, 90, some 70, none, none, []⟩,
         [⟨0, "Cardio", 60, "medium", 90, false, 70⟩]⟩ := by
    unfold applyAdd add_activity freshUser
    dsimp only
    rw [hg90, hstop]
    rfl
  have hg3456 : calculate_exp_gain 1440 "high" true none "Cardio" = 3456 := by
    simp [calculate_exp_gain]
    norm_num
  have hedit : applyEdit ⟨⟨1, 90, some 70, none, none, []⟩,
        [⟨0, "Cardio", 60, "medium", 90, false, 70⟩]⟩ 0
        ⟨"Cardio", "high", 1440, 70, true, 0⟩
      = ⟨⟨1, 3456, some 70, none, none, []⟩,
         [⟨0, "Cardio", 1440, "high", 3456, true, 70⟩]⟩ := by
    unfold applyEdit edit_activity
    dsimp only
    rw [hg3456]
    norm_num
  have hlt := hall _ hreach
  rw [hadd, hedit] at hlt
  dsimp only at hlt
  rw [expNext_one] at hlt
  norm_num at hlt

/-- C3 (amended): for every state reachable from a fresh user by activity
creation, activity deletion, the inactivity penalty, and challenge claiming
— i.e. any sequence of the core operations *except edit* — the invariant
`exp < expForNextLevel(level)` holds.  Editing an activity can break it
(`C3_counterexample`) because the edit path applies the EXP delta without
re-running the leveling loop. -/
theorem C3_invariant_amended (s : SysState) (h : ReachableNoEdit s) :
    s.user.exp < (calculate_exp_for_next_level s.user.level : ℚ) :=
  (reachableNoEdit_good s h).2.2.1

/-- Witness for `C3_invariant_amended`: the state after one valid activity
submission from a fresh user. -/
theorem C3_invariant_amended_witness :
    (applyAdd ⟨freshUser, []⟩ ⟨"Cardio", "medium", 60, 70, false, 0⟩).user.exp
      < (calculate_exp_for_next_level
          (applyAdd ⟨freshUser, []⟩
            ⟨"Cardio", "medium", 60, 70, false, 0⟩).user.level : ℚ) :=
  C3_invariant_amended _
    (ReachableNoEdit.add _ _ ReachableNoEdit.init
      ⟨by decide, by decide, by decide, by decide, by norm_num, by norm_num⟩)

/-! ## Claim C10: claims for identifiers of past periods -/

/-- C10: a claim whose identifier is not among the identifiers derived for
the current week and month — in particular the identifier of a challenge
completed but not claimed in a past period — is rejected with no change to
the user (exp, level and claimed list included). -/
theorem C10_claim_unknown_id (u : UserState) (cid : String) (today : Ymd)
    (acts : List Activity)
    (h : ∀ c ∈ (get_current_challenges today acts).1
        ++ (get_current_challenges today acts).2, c.id ≠ cid) :
    claim_challenge u cid today acts = u := by
  have hnone : ((get_current_challenges today acts).1
      ++ (get_current_challenges today acts).2).find?
      (fun c => c.id = cid) = none :=
    List.find?_eq_none.mpr (fun x hx => by simpa using h x hx)
  unfold claim_challenge
  dsimp only
  rw [hnone]

/-- Witness for `C10_claim_unknown_id`: on 2024-01-04 the current weekly ids
carry the marker `2024_w1`, so the week-1-of-2020 instance id
`w_3sessions_2020_w1` is not derivable any more and claiming it leaves the
user untouched. -/
theorem C10_claim_unknown_id_witness :
    claim_challenge ⟨1, 0, none, none, none, []⟩ "w_3sessions_2020_w1"
      ⟨2024, 1, 4⟩ [] = ⟨1, 0, none, none, none, []⟩ :=
  C10_claim_unknown_id _ _ _ _ (by decide)

/-! ## Claim C5: claim acceptance and idempotency -/

/-- C5: with `c` the current instance found for the claimed identifier — a
claim is rejected with the user unchanged when the instance is not completed
or the identifier is already claimed; a successful claim adds the reward,
runs the leveling loop and appends the identifier, after which claiming the
same identifier again returns the new state unchanged. -/
theorem C5_claim_challenge (u : UserState) (cid : String) (today : Ymd)
    (acts : List Activity) (c : Challenge)
    (hfind : ((get_current_challenges today acts).1
        ++ (get_current_challenges today acts).2).find?
        (fun x => x.id = cid) = some c) :
    (c.completed = false → claim_challenge u cid today acts = u) ∧
    (cid ∈ u.claimed_challenges → claim_challenge u cid today acts = u) ∧
    (c.completed = true → cid ∉ u.claimed_challenges →
      claim_challenge u cid today acts
        = { u with
            exp := (applyLeveling u.level (u.exp + (c.reward_exp : ℚ))).2.1,
            level := (applyLeveling u.level (u.exp + (c.reward_exp : ℚ))).1,
            claimed_challenges := u.claimed_challenges ++ [cid] } ∧
      claim_challenge (claim_challenge u cid today acts) cid today acts
        = claim_challenge u cid today acts) := by
  refine ⟨?_, ?_, ?_⟩
  · intro hc
    unfold claim_challenge
    dsimp only
    rw [hfind]
    simp [hc]
  · intro hmem
    unfold claim_challenge
    dsimp only
    rw [hfind]
    cases hc : c.completed <;> simp [hmem]
  · intro hc hmem
    have hres : claim_challenge u cid today acts
        = { u with
            exp := (applyLeveling u.level (u.exp + (c.reward_exp : ℚ))).2.1,
            level := (applyLeveling u.level (u.exp + (c.reward_exp : ℚ))).1,
            claimed_challenges := u.claimed_challenges ++ [cid] } := by
      unfold claim_challenge
      dsimp only
      rw [hfind]
      simp [hc, hmem]
    refine ⟨hres, ?_⟩
    rw [hres]
    unfold claim_challenge
    dsimp only
    rw [hfind]
    simp [hc]

/-- Witness for `C5_claim_challenge`: on 2024-01-04 a fresh user with one
high-intensity activity that week has completed `w_high_intensity` (target
1, reward 75).  Claiming `w_high_intensity_2024_w1` adds 75 EXP (no
level-up) and records the id; claiming it again changes nothing. -/
theorem C5_claim_challenge_witness :
    claim_challenge ⟨1, 0, none, none, none, []⟩ "w_high_intensity_2024_w1"
        ⟨2024, 1, 4⟩ [⟨738889, "Cardio", 60, "high", 144, false, 70⟩]
      = ⟨1, 75, none, none, none, ["w_high_intensity_2024_w1"]⟩ ∧
    claim_challenge
        (claim_challenge ⟨1, 0, none, none, none, []⟩
          "w_high_intensity_2024_w1" ⟨2024, 1, 4⟩
          [⟨738889, "Cardio", 60, "high", 144, false, 70⟩])
        "w_high_intensity_2024_w1" ⟨2024, 1, 4⟩
        [⟨738889, "Cardio", 60, "high", 144, false, 70⟩]
      = claim_challenge ⟨1, 0, none, none, none, []⟩
          "w_high_intensity_2024_w1" ⟨2024, 1, 4⟩
          [⟨738889, "Cardio", 60, "high", 144, false, 70⟩] := by
  obtain ⟨h1, h2, h3⟩ := C5_claim_challenge ⟨1, 0, none, none, none, []⟩
    "w_high_intensity_2024_w1" ⟨2024, 1, 4⟩
    [⟨738889, "Cardio", 60, "high", 144, false, 70⟩]
    ⟨"w_high_intensity_2024_w1", 1, 1, 75, true⟩ (by decide)
  have hsucc := h3 rfl (by simp)
  refine ⟨?_, hsucc.2⟩
  rw [hsucc.1]
  have hlev : applyLeveling 1 ((0 : ℚ) + ((75 : ℕ) : ℚ)) = (1, 75, []) := by
    rw [(by push_cast; norm_num : (0 : ℚ) + ((75 : ℕ) : ℚ) = 75)]
    exact applyLeveling_stop (by rw [expNext_one]; norm_num)
  dsimp only
  rw [hlev]
  rfl

end FitnessApp
